import Mathlib

/-!
Verification of the Vibe10X / VoiceNudge behavioural-nudge utility.

The development shallowly embeds, in Lean 4:
* the pure configuration utilities of `lib/config.js`
  (presets, clamping, merging, validation, enabled-app resolution), over a
  small model of JavaScript values, and
* the Hammerspoon keystroke-monitoring engine of
  `hammerspoon/voicenudge.lua` / the vibe10x module in
  `hammerspoon/voicenudge-menu.lua` (keystroke handling, focus handling,
  counter reset, inactivity-timer restart), as an explicit state machine
  emitting observable notifications.
-/

set_option maxHeartbeats 1000000

namespace Vibe10x

/-! ## A model of JavaScript values

Objects are insertion-ordered association lists of string keys (JS objects
have unique keys; operations below preserve that). Numbers are modelled as
rationals (all numerals appearing in the program are exact decimals). -/

inductive JSVal where
  | vUndefined : JSVal
  | vNull : JSVal
  | vBool (b : Bool) : JSVal
  | vNum (q : ℚ) : JSVal
  | vStr (s : String) : JSVal
  | vArr (elems : List JSVal) : JSVal
  | vObj (fields : List (String × JSVal)) : JSVal
  deriving Repr

mutual

/-- Boolean (structural) equality of JS values. -/
def beqV : JSVal → JSVal → Bool
  | .vUndefined, .vUndefined => true
  | .vNull, .vNull => true
  | .vBool a, .vBool b => a == b
  | .vNum a, .vNum b => a == b
  | .vStr a, .vStr b => a == b
  | .vArr xs, .vArr ys => beqL xs ys
  | .vObj fs, .vObj gs => beqF fs gs
  | _, _ => false

/-- Boolean equality of JS value lists. -/
def beqL : List JSVal → List JSVal → Bool
  | [], [] => true
  | x :: xs, y :: ys => beqV x y && beqL xs ys
  | _, _ => false

/-- Boolean equality of JS object field lists. -/
def beqF : List (String × JSVal) → List (String × JSVal) → Bool
  | [], [] => true
  | (k, v) :: fs, (l, w) :: gs => k == l && beqV v w && beqF fs gs
  | _, _ => false

end

mutual

theorem beqV_iff : ∀ (a b : JSVal), beqV a b = true ↔ a = b
  | .vUndefined, b => by cases b <;> simp [beqV]
  | .vNull, b => by cases b <;> simp [beqV]
  | .vBool x, b => by cases b <;> simp [beqV]
  | .vNum x, b => by cases b <;> simp [beqV]
  | .vStr x, b => by cases b <;> simp [beqV]
  | .vArr xs, b => by
      cases b <;> simp [beqV]
      exact beqL_iff xs _
  | .vObj fs, b => by
      cases b <;> simp [beqV]
      exact beqF_iff fs _

theorem beqL_iff : ∀ (xs ys : List JSVal), beqL xs ys = true ↔ xs = ys
  | [], ys => by cases ys <;> simp [beqL]
  | x :: xs, ys => by
      cases ys with
      | nil => simp [beqL]
      | cons y ys => simp [beqL, beqV_iff x y, beqL_iff xs ys]

theorem beqF_iff : ∀ (fs gs : List (String × JSVal)), beqF fs gs = true ↔ fs = gs
  | [], gs => by cases gs <;> simp [beqF]
  | (k, v) :: fs, gs => by
      cases gs with
      | nil => simp [beqF]
      | cons g gs =>
          obtain ⟨l, w⟩ := g
          simp [beqF, beqV_iff v w, beqF_iff fs gs]

end

instance : DecidableEq JSVal := fun a b => decidable_of_iff (beqV a b = true) (beqV_iff a b)

instance {α β : Type} [DecidableEq α] [DecidableEq β] : DecidableEq (Except α β) :=
  fun a b =>
    match a, b with
    | .ok x, .ok y => decidable_of_iff (x = y) (by simp)
    | .error x, .error y => decidable_of_iff (x = y) (by simp)
    | .ok _, .error _ => isFalse (by simp)
    | .error _, .ok _ => isFalse (by simp)

/-- First-match association-list lookup: models reading an own property of a
JS object (`obj[key]`), `none` standing for `undefined`. -/
def getField {α : Type} : List (String × α) → String → Option α
  | [], _ => none
  | (k, v) :: rest, key => if k = key then some v else getField rest key

/-- Models JS property assignment `obj[key] = val`: an existing key keeps its
position and has its value replaced, a new key is appended. -/
def setField {α : Type} : List (String × α) → String → α → List (String × α)
  | [], key, val => [(key, val)]
  | (k, v) :: rest, key, val =>
      if k = key then (k, val) :: rest else (k, v) :: setField rest key val

/-- Models the object-literal spread `{ ...base, ...extra }`: the fields of
`extra` are assigned, in order, into a copy of `base`. -/
def spreadFields {α : Type} (base extra : List (String × α)) : List (String × α) :=
  extra.foldl (fun acc kv => setField acc kv.1 kv.2) base

/-- `typeof v === 'object'` (true for objects, arrays and `null`). -/
def typeofIsObject : JSVal → Bool
  | .vObj _ => true
  | .vArr _ => true
  | .vNull => true
  | _ => false

/-- Own enumerable properties of a value, as used by both `Object.entries`
and object spread `{ ...v }`: the fields of an object, the index-keyed
elements of an array, the index-keyed characters of a string, nothing for
every other value. -/
def jsEntries : JSVal → List (String × JSVal)
  | .vObj fs => fs
  | .vArr xs => (List.range xs.length).zip xs |>.map (fun p => (toString p.1, p.2))
  | .vStr s => (List.range s.length).zip s.data |>.map
      (fun p => (toString p.1, JSVal.vStr (String.singleton p.2)))
  | _ => []

/-- `typeof v === 'number'`. -/
def isNumber : JSVal → Bool
  | .vNum _ => true
  | _ => false

/-- The `aggressive` entry of `PRESETS` (lib/config.js). -/
def aggressivePreset : List (String × JSVal) :=
  [("threshold", .vNum 30), ("resetAfterSeconds", .vNum 20),
   ("alertMessage", .vStr "Voice! Now!")]

/-- The `relaxed` entry of `PRESETS` (lib/config.js). -/
def relaxedPreset : List (String × JSVal) :=
  [("threshold", .vNum 100), ("resetAfterSeconds", .vNum 60),
   ("alertMessage", .vStr "Consider using voice input")]

/-- The `zen` entry of `PRESETS` (lib/config.js); the only preset carrying a
nested `voice` object. -/
def zenPreset : List (String × JSVal) :=
  [("threshold", .vNum 25), ("resetAfterSeconds", .vNum 15),
   ("alertMessage", .vStr "Breathe. Speak."),
   ("voice", .vObj [("enabled", .vBool true)])]

/-- `PRESETS` from lib/config.js, in declaration order. -/
def PRESETS : List (String × List (String × JSVal)) :=
  [("aggressive", aggressivePreset), ("relaxed", relaxedPreset), ("zen", zenPreset)]

/-- Own-property lookup in the preset library: the three presets the
object literal declares. -/
def findPreset (name : String) : Option (List (String × JSVal)) :=
  getField PRESETS name

/-- The own property names of `Object.prototype`, which a JS bracket lookup
on a plain object (an object literal, or a `JSON.parse` result) reaches
through the prototype chain when the key is not an own property. Every one
of them holds a truthy value — a built-in function, or for `__proto__` an
accessor yielding `Object.prototype` — and none of those values has own
enumerable properties, so spreading them adds nothing. -/
def protoKeys : List String :=
  ["constructor", "hasOwnProperty", "isPrototypeOf", "propertyIsEnumerable",
   "toLocaleString", "toString", "valueOf", "__proto__", "__defineGetter__",
   "__defineSetter__", "__lookupGetter__", "__lookupSetter__"]

/-- Result of the JS bracket lookup `PRESETS[name]`: an own preset, a truthy
value inherited from `Object.prototype`, or `undefined`. -/
inductive PresetLookup where
  | ownPreset (p : List (String × JSVal)) : PresetLookup
  | inherited : PresetLookup
  | absent : PresetLookup
  deriving DecidableEq, Repr

/-- `PRESETS[name]` with full JS property-lookup semantics: own properties
first, then the `Object.prototype` chain. -/
def presetLookup (name : String) : PresetLookup :=
  match findPreset name with
  | some p => .ownPreset p
  | none => if name ∈ protoKeys then .inherited else .absent

/-- `presetName.toLowerCase()` on a string, written directly on the
character list so that it evaluates by kernel reduction; `jsToLower_eq`
shows it agrees with `String.toLower`. -/
def jsToLower (s : String) : String :=
  ⟨s.data.map Char.toLower⟩

theorem jsToLower_eq (s : String) : jsToLower s = s.toLower := by
  simp [jsToLower, String.toLower, String.map_eq]

/-- `applyPreset(config, presetName)` from lib/config.js: case-insensitive
bracket lookup of the preset; the `!preset` guard throws `Unknown preset`
only when the lookup yields `undefined`, so a truthy value inherited from
`Object.prototype` (name `"constructor"`, `"__proto__"`, ...) passes the
guard and the spread `{ ...config, ...preset }` adds none of its properties
(it has no own enumerable ones); an own preset is spread over the config. -/
def applyPreset (config : List (String × JSVal)) (presetName : String) :
    Except String (List (String × JSVal)) :=
  match presetLookup (jsToLower presetName) with
  | .ownPreset preset => .ok (spreadFields config preset)
  | .inherited => .ok (spreadFields config [])
  | .absent => .error ("Unknown preset: " ++ presetName ++ ". Available: " ++
      String.intercalate ", " (PRESETS.map Prod.fst))

/-- A JS runtime error: either a `TypeError` raised by the runtime or an
`Error` thrown explicitly with `throw new Error(msg)`. -/
inductive JSError where
  | typeError (msg : String) : JSError
  | jsError (msg : String) : JSError
  deriving DecidableEq, Repr

/-- `x.toLowerCase()` for an arbitrary JS value `x`: succeeds only on
strings; on `null`/`undefined` the property read itself raises a
`TypeError`, and on any other primitive or object the absent method does. -/
def jsToLowerCase : JSVal → Except JSError String
  | .vStr s => .ok (jsToLower s)
  | .vNull => .error (.typeError "Cannot read properties of null (reading toLowerCase)")
  | .vUndefined => .error (.typeError "Cannot read properties of undefined (reading toLowerCase)")
  | _ => .error (.typeError "presetName.toLowerCase is not a function")

/-- The string interpolation of the preset name into the error template.
Only the string case is reachable in `applyPresetJS`: every non-string
argument already fails at `presetName.toLowerCase()`. -/
def jsTemplateStr : JSVal → String
  | .vStr s => s
  | .vNull => "null"
  | .vUndefined => "undefined"
  | _ => ""

/-- `applyPreset` viewed at the JavaScript value level, where `presetName`
may be any value: `presetName.toLowerCase()` is invoked before the library
lookup, so a non-string argument raises a `TypeError` there. -/
def applyPresetJS (config : List (String × JSVal)) (presetName : JSVal) :
    Except JSError (List (String × JSVal)) :=
  match jsToLowerCase presetName with
  | .error err => .error err
  | .ok lower =>
    match presetLookup lower with
    | .ownPreset preset => .ok (spreadFields config preset)
    | .inherited => .ok (spreadFields config [])
    | .absent => .error (.jsError ("Unknown preset: " ++ jsTemplateStr presetName ++
        ". Available: " ++ String.intercalate ", " (PRESETS.map Prod.fst)))

/-! ## `lib/config.js` — clamping and integer parsing -/

/-- Value of a non-empty list of decimal digits. -/
def digitsToNat (ds : List Char) : Nat :=
  ds.foldl (fun acc c => acc * 10 + (c.toNat - '0'.toNat)) 0

/-- `parseInt(s, 10)` on a string: skip leading whitespace, read an optional
sign, then the longest prefix of decimal digits; `NaN` (here `none`) exactly
when that digit prefix is empty. Trailing characters are ignored. -/
def parseIntJS (s : String) : Option Int :=
  let cs := s.data.dropWhile Char.isWhitespace
  let signed : Int × List Char :=
    match cs with
    | '-' :: rest => (-1, rest)
    | '+' :: rest => (1, rest)
    | _ => (1, cs)
  let ds := signed.2.takeWhile Char.isDigit
  if ds.isEmpty then none else some (signed.1 * digitsToNat ds)

/-- `clampThreshold(value, defaultValue = 50)` from lib/config.js, on the
string form of its argument (JS `parseInt` first converts a non-string
argument to its decimal string). -/
def clampThreshold (value : String) (defaultValue : Int := 50) : Int :=
  match parseIntJS value with
  | none => defaultValue
  | some num => max 10 (min 500 num)

/-- `clampResetPeriod(value, defaultValue = 30)` from lib/config.js. -/
def clampResetPeriod (value : String) (defaultValue : Int := 30) : Int :=
  match parseIntJS value with
  | none => defaultValue
  | some num => max 5 (min 300 num)

/-! ## `lib/config.js` — `mergeConfig` -/

/-- One iteration of the `mergeConfig` loop body for the entry
`(key, value)` of `overrides`: `null`/`undefined` values are skipped; a
non-array object value whose current counterpart satisfies
`typeof result[key] === 'object'` is merged one level deep via
`{ ...result[key], ...value }`; anything else is assigned wholesale. -/
def mergeKey (result : List (String × JSVal)) (key : String) (value : JSVal) :
    List (String × JSVal) :=
  match value with
  | .vUndefined => result
  | .vNull => result
  | .vObj vfs =>
    match getField result key with
    | some rv =>
        if typeofIsObject rv then
          setField result key (.vObj (spreadFields (jsEntries rv) vfs))
        else
          setField result key (.vObj vfs)
    | none => setField result key (.vObj vfs)
  | v => setField result key v

/-- `mergeConfig(defaults, overrides)` from lib/config.js: start from a copy
of `defaults` and fold the entries of `overrides` through `mergeKey`. -/
def mergeConfig (defaults overrides : List (String × JSVal)) : List (String × JSVal) :=
  overrides.foldl (fun result kv => mergeKey result kv.1 kv.2) defaults

/-! ## `lib/config.js` — `validateConfig`

Embedded from the current (Vibe10X) lib/config.js, the version imported by
`setup.mjs` and listed in src/README.md lines 474-520, which validates
`categories` and `customApps`; the stale legacy copy at src/lib/config.js
lines 145-177 instead checks the flat `monitoredApps` field. -/

/-- The literal `0.5` of the `alertDurationSeconds` rule, given directly as
a reduced fraction so that it evaluates by kernel reduction. -/
def half : ℚ := ⟨1, 2, by decide, by decide⟩

theorem half_eq : half = 0.5 := by
  apply Rat.ext <;> norm_num [half]

/-- `Set.prototype.add`: append the value unless already present (JS `Set`
keeps first-insertion order and never stores duplicates). -/
def setAdd (s : List JSVal) (v : JSVal) : List JSVal :=
  if v ∈ s then s else s ++ [v]

/-- Add every value of `vs`, in order, to the set `s`. -/
def insertAll (s : List JSVal) (vs : List JSVal) : List JSVal :=
  vs.foldl setAdd s

/-- The resolved configuration the engine runs with. -/
structure EngineConfig where
  enabled : Bool
  threshold : Nat
  resetAfterSeconds : ℚ
  alertDurationSeconds : ℚ
  alertMessage : String
  voiceEnabled : Bool
  monitoredApps : List String
  deriving DecidableEq, Repr

/-- The engine's live monitoring state. -/
structure Engine where
  config : EngineConfig
  keystrokeCount : Nat
  currentApp : Option String
  isMonitoring : Bool
  timerEpoch : Nat
  deriving DecidableEq, Repr

/-- A captured key-down event: its key code and Cmd/Ctrl/Alt flags. -/
structure KeyEvent where
  cmd : Bool
  ctrl : Bool
  alt : Bool
  keyCode : Nat
  deriving DecidableEq, Repr

/-- The kinds of application watcher events the handler distinguishes. -/
inductive AppEventType where
  | activated : AppEventType
  | deactivated : AppEventType
  | otherEvent : AppEventType
  deriving DecidableEq, Repr

/-- Observable notifications emitted by the engine. -/
inductive OutEvent where
  | countUpdated (count : Nat) (threshold : Nat) : OutEvent
  | alertShown (message : String) (duration : ℚ) : OutEvent
  | spoke (message : String) : OutEvent
  deriving DecidableEq, Repr

/-- The fixed ignored-key table of the Lua modules: arrows, Home/End,
PageUp/PageDown, forward and backward delete, Escape, Return, numpad Enter,
Tab, F1-F12. -/
def ignoredKeyCodes : List Nat :=
  [123, 124, 125, 126, 115, 119, 116, 121, 117, 51, 53, 36, 76, 48,
   122, 120, 99, 118, 96, 97, 98, 100, 101, 109, 103, 111]

/-- `appName:find(pattern, 1, true)` succeeds: plain (non-pattern) substring
search. -/
def containsSubstr (hay pat : String) : Bool :=
  decide (pat.data <:+: hay.data)

/-- `isMonitoredApp(appName)`: `false` for `nil`, otherwise true iff some
monitored-app pattern occurs in the name as a substring. -/
def isMonitoredApp (cfg : EngineConfig) : Option String → Bool
  | none => false
  | some appName => cfg.monitoredApps.any (fun pat => containsSubstr appName pat)

/-- `resetCounter()`: zero the counter and notify the count listener. -/
def resetCounter (e : Engine) : Engine × List OutEvent :=
  ({ e with keystrokeCount := 0 },
   [.countUpdated 0 e.config.threshold])

/-- `resetInactivityTimer()`: stop any pending inactivity timer and schedule
a fresh one for `resetAfterSeconds`; in the model the timer generation
advances by one. -/
def resetInactivityTimer (e : Engine) : Engine :=
  { e with timerEpoch := e.timerEpoch + 1 }

/-- `showNudge()`: display the alert message for `alertDurationSeconds`,
speak it when `voice.enabled`, then reset the counter (emitting its
count-updated notification). -/
def showNudge (e : Engine) : Engine × List OutEvent :=
  let alertEvents :=
    OutEvent.alertShown e.config.alertMessage e.config.alertDurationSeconds ::
      (if e.config.voiceEnabled then [OutEvent.spoke e.config.alertMessage] else [])
  let r := resetCounter e
  (r.1, alertEvents ++ r.2)

/-- `handleKeystroke(event)`: ignore the event while disabled, while the
focused app is unmonitored, when a Cmd/Ctrl/Alt flag is set, or when the
key code is in the ignored table; otherwise increment the counter, notify,
restart the inactivity timer, and fire the nudge once the threshold is
reached. -/
def handleKeystroke (e : Engine) (ev : KeyEvent) : Engine × List OutEvent :=
  if e.config.enabled = false then (e, [])
  else if isMonitoredApp e.config e.currentApp = false then (e, [])
  else if ev.cmd || ev.ctrl || ev.alt then (e, [])
  else if ev.keyCode ∈ ignoredKeyCodes then (e, [])
  else
    let newCount := e.keystrokeCount + 1
    let e1 := resetInactivityTimer { e with keystrokeCount := newCount }
    if e.config.threshold ≤ newCount then
      let r := showNudge e1
      (r.1, OutEvent.countUpdated newCount e.config.threshold :: r.2)
    else
      (e1, [OutEvent.countUpdated newCount e.config.threshold])

/-- `handleAppEvent(appName, eventType)`: on activation record the new
frontmost app and, when focus leaves the monitored set, reset the counter;
on deactivation of the tracked app clear `currentApp`. -/
def handleAppEvent (e : Engine) (appName : String) (ty : AppEventType) :
    Engine × List OutEvent :=
  match ty with
  | .activated =>
      let previousApp := e.currentApp
      let e1 := { e with currentApp := some appName }
      if previousApp.isSome && isMonitoredApp e.config previousApp &&
          !isMonitoredApp e1.config e1.currentApp then
        resetCounter e1
      else (e1, [])
  | .deactivated =>
      if e.currentApp = some appName then ({ e with currentApp := none }, [])
      else (e, [])
  | .otherEvent => (e, [])

/-- Feed a list of key events through the engine, concatenating the emitted
traces. -/
def runKeys (e : Engine) (evs : List KeyEvent) : Engine × List OutEvent :=
  evs.foldl (fun acc ev =>
    let r := handleKeystroke acc.1 ev
    (r.1, acc.2 ++ r.2)) (e, [])

/-! ## Basic lemmas about the object operations -/

theorem getField_eq_none {α : Type} (l : List (String × α)) (k : String) :
    getField l k = none ↔ k ∉ l.map Prod.fst := by
  induction l with
  | nil => simp [getField]
  | cons p rest ih =>
      obtain ⟨k1, v1⟩ := p
      by_cases h : k1 = k
      · subst h
        simp [getField]
      · simp [getField, h, ih, Ne.symm h]

theorem getField_setField_self {α : Type} (l : List (String × α)) (k : String) (v : α) :
    getField (setField l k v) k = some v := by
  induction l with
  | nil => simp [setField, getField]
  | cons p rest ih =>
      obtain ⟨k1, v1⟩ := p
      by_cases h : k1 = k
      · subst h
        simp [setField, getField]
      · simp [setField, getField, h, ih]

theorem getField_setField_ne {α : Type} (l : List (String × α)) (k k' : String) (v : α)
    (h : k' ≠ k) : getField (setField l k v) k' = getField l k' := by
  induction l with
  | nil => simp [setField, getField, Ne.symm h]
  | cons p rest ih =>
      obtain ⟨k1, v1⟩ := p
      by_cases h1 : k1 = k
      · subst h1
        simp [setField, getField, Ne.symm h]
      · simp [setField, getField, h1, ih]

theorem getField_spreadFields_not_mem {α : Type} (extra base : List (String × α)) (k : String)
    (h : k ∉ extra.map Prod.fst) :
    getField (spreadFields base extra) k = getField base k := by
  induction extra generalizing base with
  | nil => rfl
  | cons p rest ih =>
      obtain ⟨k1, v1⟩ := p
      simp only [List.map_cons, List.mem_cons, not_or] at h
      show getField (spreadFields (setField base k1 v1) rest) k = getField base k
      rw [ih _ h.2, getField_setField_ne base k1 k v1 h.1]

theorem getField_spreadFields_mem {α : Type} (extra base : List (String × α)) (k : String)
    (v : α) (hnd : (extra.map Prod.fst).Nodup) (h : getField extra k = some v) :
    getField (spreadFields base extra) k = some v := by
  induction extra generalizing base with
  | nil => simp [getField] at h
  | cons p rest ih =>
      obtain ⟨k1, v1⟩ := p
      simp only [List.map_cons, List.nodup_cons] at hnd
      show getField (spreadFields (setField base k1 v1) rest) k = some v
      by_cases h1 : k1 = k
      · subst h1
        have h' : v1 = v := by simpa [getField] using h
        subst h'
        rw [getField_spreadFields_not_mem rest _ _ hnd.1, getField_setField_self]
      · simp only [getField, if_neg h1] at h
        exact ih _ hnd.2 h

/-- The per-key result of one `mergeConfig` loop iteration, as a function of
the current value at that key and the override value. -/
def mergeSpec (cur : Option JSVal) : JSVal → Option JSVal
  | .vUndefined => cur
  | .vNull => cur
  | .vObj vfs =>
    match cur with
    | some rv =>
        if typeofIsObject rv then some (.vObj (spreadFields (jsEntries rv) vfs))
        else some (.vObj vfs)
    | none => some (.vObj vfs)
  | v => some v

theorem getField_mergeKey_self (res : List (String × JSVal)) (k : String) (v : JSVal) :
    getField (mergeKey res k v) k = mergeSpec (getField res k) v := by
  cases v with
  | vUndefined => rfl
  | vNull => rfl
  | vObj vfs =>
      simp only [mergeKey, mergeSpec]
      cases h : getField res k with
      | none => simp [getField_setField_self]
      | some rv =>
          by_cases ht : typeofIsObject rv <;> simp [ht, getField_setField_self]
  | vBool b => simp [mergeKey, mergeSpec, getField_setField_self]
  | vNum q => simp [mergeKey, mergeSpec, getField_setField_self]
  | vStr s => simp [mergeKey, mergeSpec, getField_setField_self]
  | vArr xs => simp [mergeKey, mergeSpec, getField_setField_self]

theorem getField_mergeKey_ne (res : List (String × JSVal)) (k k' : String) (v : JSVal)
    (h : k' ≠ k) : getField (mergeKey res k v) k' = getField res k' := by
  cases v with
  | vUndefined => rfl
  | vNull => rfl
  | vObj vfs =>
      simp only [mergeKey]
      cases getField res k with
      | none => exact getField_setField_ne _ _ _ _ h
      | some rv =>
          by_cases ht : typeofIsObject rv <;>
            simp [ht, getField_setField_ne _ _ _ _ h]
  | vBool b => exact getField_setField_ne _ _ _ _ h
  | vNum q => exact getField_setField_ne _ _ _ _ h
  | vStr s => exact getField_setField_ne _ _ _ _ h
  | vArr xs => exact getField_setField_ne _ _ _ _ h

theorem getField_mergeConfig (o d : List (String × JSVal)) (k : String)
    (hnd : (o.map Prod.fst).Nodup) :
    getField (mergeConfig d o) k =
      match getField o k with
      | none => getField d k
      | some v => mergeSpec (getField d k) v := by
  induction o generalizing d with
  | nil => rfl
  | cons p rest ih =>
      obtain ⟨k1, v1⟩ := p
      simp only [List.map_cons, List.nodup_cons] at hnd
      show getField (mergeConfig (mergeKey d k1 v1) rest) k = _
      by_cases h1 : k1 = k
      · subst h1
        have hrest := (getField_eq_none rest _).mpr hnd.1
        rw [ih _ hnd.2]
        simp [getField, hrest, getField_mergeKey_self]
      · rw [ih _ hnd.2]
        simp [getField, h1, getField_mergeKey_ne _ _ _ _ (Ne.symm h1)]

/-! ## Lemmas about the set operations of `getEnabledApps` -/

theorem mem_setAdd (s : List JSVal) (w v : JSVal) : v ∈ setAdd s w ↔ v ∈ s ∨ v = w := by
  by_cases h : w ∈ s
  · simp only [setAdd, if_pos h]
    constructor
    · exact Or.inl
    · rintro (hv | rfl)
      · exact hv
      · exact h
  · simp [setAdd, if_neg h]

theorem nodup_setAdd (s : List JSVal) (w : JSVal) (h : s.Nodup) : (setAdd s w).Nodup := by
  by_cases hw : w ∈ s
  · simpa [setAdd, hw] using h
  · simp [setAdd, hw, List.nodup_append, h]

theorem mem_insertAll (s vs : List JSVal) (v : JSVal) :
    v ∈ insertAll s vs ↔ v ∈ s ∨ v ∈ vs := by
  induction vs generalizing s with
  | nil => simp [insertAll]
  | cons w ws ih =>
      show v ∈ insertAll (setAdd s w) ws ↔ _
      rw [ih, mem_setAdd]
      simp only [List.mem_cons]
      tauto

theorem nodup_insertAll (s vs : List JSVal) (h : s.Nodup) : (insertAll s vs).Nodup := by
  induction vs generalizing s with
  | nil => exact h
  | cons w ws ih => exact ih _ (nodup_setAdd s w h)

theorem mem_foldl_insertAll {α : Type} (f : α → List JSVal) (l : List α)
    (s : List JSVal) (v : JSVal) :
    v ∈ l.foldl (fun acc p => insertAll acc (f p)) s ↔ v ∈ s ∨ ∃ p ∈ l, v ∈ f p := by
  induction l generalizing s with
  | nil => simp
  | cons p ps ih =>
      rw [List.foldl_cons, ih, mem_insertAll]
      simp only [List.mem_cons]
      constructor
      · rintro ((hv | hv) | ⟨q, hq, hfq⟩)
        · exact Or.inl hv
        · exact Or.inr ⟨p, Or.inl rfl, hv⟩
        · exact Or.inr ⟨q, Or.inr hq, hfq⟩
      · rintro (hv | ⟨q, (rfl | hq), hfq⟩)
        · exact Or.inl (Or.inl hv)
        · exact Or.inl (Or.inr hfq)
        · exact Or.inr ⟨q, hq, hfq⟩

theorem nodup_foldl_insertAll {α : Type} (f : α → List JSVal) (l : List α)
    (s : List JSVal) (h : s.Nodup) :
    (l.foldl (fun acc p => insertAll acc (f p)) s).Nodup := by
  induction l generalizing s with
  | nil => exact h
  | cons p ps ih => exact ih _ (nodup_insertAll _ _ h)

/-- The spec scenario's engine configuration: threshold 3, monitored app
pattern `"Editor"`, engine enabled, voice disabled. -/
def scenarioConfig : EngineConfig :=
  { enabled := true
    threshold := 3
    resetAfterSeconds := 30
    alertDurationSeconds := 2
    alertMessage := "Use your voice!"
    voiceEnabled := false
    monitoredApps := ["Editor"] }

/-- The spec scenario's running engine, focused on `"Editor"`. -/
def scenarioEngine : Engine :=
  { config := scenarioConfig
    keystrokeCount := 0
    currentApp := some "Editor"
    isMonitoring := true
    timerEpoch := 0 }

/-- A plain key-down event: no modifiers, key code 0 (not ignored). -/
def plainKey : KeyEvent := { cmd := false, ctrl := false, alt := false, keyCode := 0 }

/-- A key-down event carrying the Cmd modifier. -/
def cmdKey : KeyEvent := { cmd := true, ctrl := false, alt := false, keyCode := 0 }

/-- C1: for a running, enabled engine focused on a monitored app, an
unmodified key-down event with a non-ignored key code increments the counter
by one, emits the count-updated notification first, restarts the inactivity
timer (the timer generation advances by one), and, when the incremented
count reaches the threshold, follows with the alert sequence and a final
count-updated notification at zero, the counter ending at zero; with
threshold 3 and three such events the emitted trace is count-updated 1,
count-updated 2, count-updated 3, the alert, then count-updated 0. -/
theorem C1_accepted_keystroke_counts_and_alerts :
    (∀ (e : Engine) (ev : KeyEvent),
      e.isMonitoring = true →
      e.config.enabled = true →
      isMonitoredApp e.config e.currentApp = true →
      ev.cmd = false → ev.ctrl = false → ev.alt = false →
      ev.keyCode ∉ ignoredKeyCodes →
      (handleKeystroke e ev).1.timerEpoch = e.timerEpoch + 1 ∧
      (handleKeystroke e ev).1.keystrokeCount =
        (if e.config.threshold ≤ e.keystrokeCount + 1 then 0 else e.keystrokeCount + 1) ∧
      (handleKeystroke e ev).2 =
        OutEvent.countUpdated (e.keystrokeCount + 1) e.config.threshold ::
          (if e.config.threshold ≤ e.keystrokeCount + 1 then
            OutEvent.alertShown e.config.alertMessage e.config.alertDurationSeconds ::
              ((if e.config.voiceEnabled then [OutEvent.spoke e.config.alertMessage] else []) ++
                [OutEvent.countUpdated 0 e.config.threshold])
           else [])) ∧
    (runKeys scenarioEngine [plainKey, plainKey, plainKey]).2 =
      [OutEvent.countUpdated 1 3, OutEvent.countUpdated 2 3, OutEvent.countUpdated 3 3,
       OutEvent.alertShown "Use your voice!" 2, OutEvent.countUpdated 0 3] := by
  constructor
  · intro e ev _ h1 h2 h3 h4 h5 h6
    by_cases ht : e.config.threshold ≤ e.keystrokeCount + 1 <;>
      simp [handleKeystroke, showNudge, resetCounter, resetInactivityTimer,
        h1, h2, h3, h4, h5, h6, ht]
  · decide

/-- C1 witness: the general clause of C1 instantiated at the scenario engine
and a plain key event. -/
theorem C1_witness :
    (handleKeystroke scenarioEngine plainKey).1.timerEpoch = scenarioEngine.timerEpoch + 1 ∧
    (handleKeystroke scenarioEngine plainKey).1.keystrokeCount =
      (if scenarioEngine.config.threshold ≤ scenarioEngine.keystrokeCount + 1 then 0
       else scenarioEngine.keystrokeCount + 1) ∧
    (handleKeystroke scenarioEngine plainKey).2 =
      OutEvent.countUpdated (scenarioEngine.keystrokeCount + 1) scenarioEngine.config.threshold ::
        (if scenarioEngine.config.threshold ≤ scenarioEngine.keystrokeCount + 1 then
          OutEvent.alertShown scenarioEngine.config.alertMessage
              scenarioEngine.config.alertDurationSeconds ::
            ((if scenarioEngine.config.voiceEnabled then
                [OutEvent.spoke scenarioEngine.config.alertMessage] else []) ++
              [OutEvent.countUpdated 0 scenarioEngine.config.threshold])
         else []) :=
  C1_accepted_keystroke_counts_and_alerts.1 scenarioEngine plainKey rfl rfl (by decide)
    rfl rfl rfl (by decide)

/-- C2: a key-down event carrying a Cmd/Ctrl/Alt modifier, or whose key code
is in the fixed ignored table, or arriving while the focused app is
unmonitored, or while the config is disabled, leaves the engine state
(counter, focused app, pending timer generation) unchanged and emits no
notification. -/
theorem C2_ignored_keystroke_is_noop (e : Engine) (ev : KeyEvent)
    (h : ev.cmd = true ∨ ev.ctrl = true ∨ ev.alt = true ∨
      ev.keyCode ∈ ignoredKeyCodes ∨
      isMonitoredApp e.config e.currentApp = false ∨
      e.config.enabled = false) :
    handleKeystroke e ev = (e, []) := by
  unfold handleKeystroke
  by_cases h1 : e.config.enabled = false
  · simp [h1]
  · rw [if_neg h1]
    by_cases h2 : isMonitoredApp e.config e.currentApp = false
    · simp [h2]
    · rw [if_neg h2]
      by_cases h3 : (ev.cmd || ev.ctrl || ev.alt) = true
      · simp [h3]
      · rw [if_neg h3]
        by_cases h4 : ev.keyCode ∈ ignoredKeyCodes
        · simp [h4]
        · exfalso
          simp only [Bool.or_eq_true, not_or, Bool.not_eq_true] at h3
          rcases h with h | h | h | h | h | h
          · exact absurd h (by simp [h3.1.1])
          · exact absurd h (by simp [h3.1.2])
          · exact absurd h (by simp [h3.2])
          · exact h4 h
          · exact h2 h
          · exact h1 h

/-- C2 witness: a Cmd-modified key event on the scenario engine changes
nothing and emits nothing. -/
theorem C2_witness : handleKeystroke scenarioEngine cmdKey = (scenarioEngine, []) :=
  C2_ignored_keystroke_is_noop scenarioEngine cmdKey (Or.inl rfl)

/-- C3: on an `activated` focus event for app `b`, if the engine's tracked
app matched the monitored set and `b` does not, the counter is reset to 0
with a count-updated notification while the pending timer generation is
untouched; every `activated` event makes `b` the tracked app; a
`deactivated` event for the tracked app clears it to `none`. -/
theorem C3_focus_change_semantics :
    (∀ (e : Engine) (b : String),
      isMonitoredApp e.config e.currentApp = true →
      isMonitoredApp e.config (some b) = false →
      handleAppEvent e b .activated =
        ({ e with currentApp := some b, keystrokeCount := 0 },
         [OutEvent.countUpdated 0 e.config.threshold])) ∧
    (∀ (e : Engine) (b : String), (handleAppEvent e b .activated).1.currentApp = some b) ∧
    (∀ (e : Engine) (b : String), e.currentApp = some b →
      handleAppEvent e b .deactivated = ({ e with currentApp := none }, [])) := by
  refine ⟨?_, ?_, ?_⟩
  · intro e b h1 h2
    have hsome : e.currentApp.isSome = true := by
      cases hc : e.currentApp with
      | none => rw [hc] at h1; simp [isMonitoredApp] at h1
      | some a => rfl
    simp [handleAppEvent, resetCounter, hsome, h1, h2]
  · intro e b
    simp only [handleAppEvent]
    split
    · simp [resetCounter]
    · rfl
  · intro e b h
    simp [handleAppEvent, h]

/-- C3 witness: the scenario engine focused on the monitored `"Editor"`
switching to the unmonitored `"Browser"`, plus the update and deactivation
clauses at the same concrete state. -/
theorem C3_witness :
    handleAppEvent scenarioEngine "Browser" .activated =
      ({ scenarioEngine with currentApp := some "Browser", keystrokeCount := 0 },
       [OutEvent.countUpdated 0 scenarioEngine.config.threshold]) ∧
    (handleAppEvent scenarioEngine "Browser" .activated).1.currentApp = some "Browser" ∧
    handleAppEvent scenarioEngine "Editor" .deactivated =
      ({ scenarioEngine with currentApp := none }, []) :=
  ⟨C3_focus_change_semantics.1 scenarioEngine "Browser" (by decide) (by decide),
   C3_focus_change_semantics.2.1 scenarioEngine "Browser",
   C3_focus_change_semantics.2.2 scenarioEngine "Editor" rfl⟩

/-! ## Claim C4 -/

/-- C7: per key, `mergeConfig` ignores `null`/`undefined` override values
(the default survives), replaces array-valued overrides wholesale, and for a
key that is a non-array mapping in both inputs produces the one-level merge
of the sub-keys: every override sub-key wins, and every sub-key absent from
the override keeps its default. The embedding is a pure function, so neither
input is ever mutated. -/
theorem C7_mergeConfig_semantics :
    ∀ (defaults overrides : List (String × JSVal)) (k : String),
      (overrides.map Prod.fst).Nodup →
      (((getField overrides k = some .vNull ∨ getField overrides k = some .vUndefined) →
          getField (mergeConfig defaults overrides) k = getField defaults k) ∧
       (∀ xs, getField overrides k = some (.vArr xs) →
          getField (mergeConfig defaults overrides) k = some (.vArr xs)) ∧
       (∀ dfs ofs, getField defaults k = some (.vObj dfs) →
          getField overrides k = some (.vObj ofs) →
          (ofs.map Prod.fst).Nodup →
          ∃ rfs, getField (mergeConfig defaults overrides) k = some (.vObj rfs) ∧
            (∀ sk v, getField ofs sk = some v → getField rfs sk = some v) ∧
            (∀ sk, getField ofs sk = none → getField rfs sk = getField dfs sk))) := by
  intro d o k hnd
  have hchar := getField_mergeConfig o d k hnd
  refine ⟨?_, ?_, ?_⟩
  · rintro (h | h) <;> rw [hchar, h] <;> rfl
  · intro xs h
    rw [hchar, h]
    rfl
  · intro dfs ofs hd ho hofs
    rw [hchar, ho, hd]
    refine ⟨spreadFields dfs ofs, ?_, ?_, ?_⟩
    · simp [mergeSpec, typeofIsObject, jsEntries]
    · intro sk v hv
      exact getField_spreadFields_mem ofs dfs sk v hofs hv
    · intro sk hnone
      exact getField_spreadFields_not_mem ofs dfs sk ((getField_eq_none ofs sk).mp hnone)

/-- A base config exercising all three `mergeConfig` behaviours. -/
def c7Defaults : List (String × JSVal) :=
  [("voice", .vObj [("enabled", .vBool false), ("volume", .vNum 1)]),
   ("threshold", .vNum 50), ("monitoredApps", .vArr [.vStr "Code"])]

/-- Overrides with a `null` value, a nested object and an array. -/
def c7Overrides : List (String × JSVal) :=
  [("threshold", .vNull), ("voice", .vObj [("enabled", .vBool true)]),
   ("monitoredApps", .vArr [.vStr "Zed"])]

/-- C7 witness: the three clauses of C7 at a concrete defaults/overrides
pair — the `null` threshold is ignored, the array replaces wholesale, and
the `voice` objects merge one level deep. -/
theorem C7_witness :
    getField (mergeConfig c7Defaults c7Overrides) "threshold" =
      getField c7Defaults "threshold" ∧
    getField (mergeConfig c7Defaults c7Overrides) "monitoredApps" =
      some (.vArr [.vStr "Zed"]) ∧
    (∃ rfs, getField (mergeConfig c7Defaults c7Overrides) "voice" = some (.vObj rfs) ∧
      (∀ sk v, getField [("enabled", JSVal.vBool true)] sk = some v →
        getField rfs sk = some v) ∧
      (∀ sk, getField [("enabled", JSVal.vBool true)] sk = none →
        getField rfs sk =
          getField [("enabled", JSVal.vBool false), ("volume", JSVal.vNum 1)] sk)) :=
  ⟨(C7_mergeConfig_semantics c7Defaults c7Overrides "threshold" (by decide)).1 (Or.inl rfl),
   (C7_mergeConfig_semantics c7Defaults c7Overrides "monitoredApps" (by decide)).2.1
      [.vStr "Zed"] rfl,
   (C7_mergeConfig_semantics c7Defaults c7Overrides "voice" (by decide)).2.2
      [("enabled", .vBool false), ("volume", .vNum 1)] [("enabled", .vBool true)]
      rfl rfl (by decide)⟩

/-! ## Claim C5 -/

/-- A config whose `voice` object holds a sub-key (`volume`) that the `zen`
preset does not mention. -/
def c5Base : List (String × JSVal) :=
  [("voice", .vObj [("enabled", .vBool false), ("volume", .vNum 1)])]

/-- C5 counterexample: `applyPreset` is the shallow spread
`{ ...config, ...preset }`, not `mergeConfig`: applying `zen` (which carries
a nested `voice` object) to a config whose `voice` has an extra `volume`
sub-key drops that sub-key, while `mergeConfig` would keep it — so the two
differ at this input. -/
theorem C5_counterexample :
    applyPreset c5Base "zen" ≠ Except.ok (mergeConfig c5Base zenPreset) ∧
    applyPreset c5Base "zen" = Except.ok
      [("voice", .vObj [("enabled", .vBool true)]),
       ("threshold", .vNum 25), ("resetAfterSeconds", .vNum 15),
       ("alertMessage", .vStr "Breathe. Speak.")] ∧
    mergeConfig c5Base zenPreset =
      [("voice", .vObj [("enabled", .vBool true), ("volume", .vNum 1)]),
       ("threshold", .vNum 25), ("resetAfterSeconds", .vNum 15),
       ("alertMessage", .vStr "Breathe. Speak.")] :=
  ⟨by decide, by decide, by decide⟩

theorem findPreset_nodup (s : String) (p : List (String × JSVal))
    (h : findPreset s = some p) : (p.map Prod.fst).Nodup := by
  simp only [findPreset, PRESETS, getField] at h
  split at h
  · cases h
    decide
  · split at h
    · cases h
      decide
    · split at h
      · cases h
        decide
      · cases h

/-- C5 amended: for every resolvable preset name, `applyPreset` succeeds
with the shallow spread of the preset over the config: every top-level key
the preset mentions takes exactly the preset's value (nested objects such as
`voice` are replaced wholesale, so config sub-keys the preset does not
mention are lost), and every top-level config key the preset does not
mention survives unchanged. It agrees with `mergeConfig` only when no
overlapping key is object-valued in both inputs. -/
theorem C5_amended_applyPreset_shallow_spread :
    ∀ (config : List (String × JSVal)) (name : String) (preset : List (String × JSVal)),
      findPreset (jsToLower name) = some preset →
      ∃ result, applyPreset config name = .ok result ∧
        (∀ k v, getField preset k = some v → getField result k = some v) ∧
        (∀ k, getField preset k = none → getField result k = getField config k) := by
  intro config name preset h
  refine ⟨spreadFields config preset, ?_, ?_, ?_⟩
  · simp [applyPreset, presetLookup, h]
  · intro k v hv
    exact getField_spreadFields_mem preset config k v (findPreset_nodup _ _ h) hv
  · intro k hnone
    exact getField_spreadFields_not_mem preset config k ((getField_eq_none preset k).mp hnone)

/-- C5 witness: the amended claim at `c5Base` and the `zen` preset. -/
theorem C5_witness :
    ∃ result, applyPreset c5Base "zen" = .ok result ∧
      (∀ k v, getField zenPreset k = some v → getField result k = some v) ∧
      (∀ k, getField zenPreset k = none → getField result k = getField c5Base k) :=
  C5_amended_applyPreset_shallow_spread c5Base "zen" zenPreset rfl

/-! ## Claim C8 -/

/-- C8 counterexample: the universal unknown-name clause fails on the
program — `"constructor"` matches none of the three presets, yet
`PRESETS["constructor"]` finds the truthy inherited
`Object.prototype.constructor`, so the `!preset` guard does not fire and
`applyPreset` returns a copy of the config with no error; `"__proto__"`
likewise. -/
theorem C8_counterexample :
    getField PRESETS "constructor" = none ∧
    applyPreset [] "constructor" = .ok [] ∧
    applyPreset [] "__proto__" = .ok [] ∧
    applyPreset [("threshold", JSVal.vNum 50)] "constructor" =
      .ok [("threshold", JSVal.vNum 50)] :=
  ⟨rfl, rfl, rfl, rfl⟩

/-- C8, amended: preset lookup is case-insensitive — `"AGGRESSIVE"` and
`"aggressive"` give identical results on every config — and for every name
whose lowercase is neither a preset nor an `Object.prototype` property
name, `applyPreset` fails with exactly
`"Unknown preset: <name>. Available: aggressive, relaxed, zen"`, a message
containing the substring `"Unknown preset: <name>"` and enumerating the
preset names as `"aggressive, relaxed, zen"` in their fixed declaration
order; a name whose lowercase is an inherited `Object.prototype` property
name instead passes the truthiness guard, spreads no own enumerable
properties, and returns the config copy without error. -/
theorem C8_amended_preset_lookup :
    (∀ config : List (String × JSVal),
      applyPreset config "AGGRESSIVE" = applyPreset config "aggressive") ∧
    (∀ (config : List (String × JSVal)) (name : String),
      findPreset (jsToLower name) = none → jsToLower name ∉ protoKeys →
      applyPreset config name =
        .error ("Unknown preset: " ++ name ++ ". Available: aggressive, relaxed, zen") ∧
      containsSubstr ("Unknown preset: " ++ name ++ ". Available: aggressive, relaxed, zen")
        ("Unknown preset: " ++ name) = true ∧
      containsSubstr ("Unknown preset: " ++ name ++ ". Available: aggressive, relaxed, zen")
        "aggressive, relaxed, zen" = true) ∧
    (∀ (config : List (String × JSVal)) (name : String),
      findPreset (jsToLower name) = none → jsToLower name ∈ protoKeys →
      applyPreset config name = .ok (spreadFields config [])) := by
  refine ⟨?_, ?_, ?_⟩
  · intro config
    rfl
  · intro config name h hp
    refine ⟨?_, ?_, ?_⟩
    · simp only [applyPreset, presetLookup, h, if_neg hp]
      rw [String.append_assoc]
      congr 1
    · apply decide_eq_true
      exact ⟨[], (". Available: aggressive, relaxed, zen" : String).data,
        by simp [String.data_append]⟩
    · have hB : (". Available: aggressive, relaxed, zen" : String) =
          ". Available: " ++ "aggressive, relaxed, zen" := by decide
      rw [hB]
      apply decide_eq_true
      refine ⟨("Unknown preset: " ++ name ++ ". Available: " : String).data, [], ?_⟩
      simp [String.data_append]
  · intro config name h hp
    simp [applyPreset, presetLookup, h, hp]

/-- C8 witness: the unknown-preset clause at the spec's `"bogus"` example,
the case-insensitivity clause at the empty config, and the inherited-name
clause at `"CONSTRUCTOR"` (whose lowercase hits the prototype chain). -/
theorem C8_witness :
    (applyPreset [] "bogus" =
      .error ("Unknown preset: " ++ "bogus" ++ ". Available: aggressive, relaxed, zen") ∧
     containsSubstr ("Unknown preset: " ++ "bogus" ++ ". Available: aggressive, relaxed, zen")
       ("Unknown preset: " ++ "bogus") = true ∧
     containsSubstr ("Unknown preset: " ++ "bogus" ++ ". Available: aggressive, relaxed, zen")
       "aggressive, relaxed, zen" = true) ∧
    applyPreset [] "AGGRESSIVE" = applyPreset [] "aggressive" ∧
    applyPreset [] "CONSTRUCTOR" = .ok (spreadFields [] []) :=
  ⟨C8_amended_preset_lookup.2.1 [] "bogus" rfl (by decide),
   C8_amended_preset_lookup.1 [],
   C8_amended_preset_lookup.2.2 [] "CONSTRUCTOR" rfl (by decide)⟩

/-! ## Claim C9 -/

/-- C9: the descriptive `Unknown preset` failure presupposes a string-valued
name: at the JS value level, a `null` or `undefined` preset name makes
`applyPreset` raise a `TypeError` from `presetName.toLowerCase()` before the
library lookup, every thrown `Unknown preset` `Error` comes from a
string-valued name, and on strings the value-level function coincides with
`applyPreset`. -/
theorem C9_nonstring_preset_name_type_error :
    (∀ config : List (String × JSVal),
      (∃ m, applyPresetJS config .vNull = .error (.typeError m)) ∧
      (∃ m, applyPresetJS config .vUndefined = .error (.typeError m))) ∧
    (∀ (config : List (String × JSVal)) (name : JSVal) (m : String),
      applyPresetJS config name = .error (.jsError m) → ∃ s, name = .vStr s) ∧
    (∀ (config : List (String × JSVal)) (s : String),
      applyPresetJS config (.vStr s) = (applyPreset config s).mapError JSError.jsError) := by
  refine ⟨fun config => ⟨⟨_, rfl⟩, ⟨_, rfl⟩⟩, ?_, ?_⟩
  · intro config name m h
    cases name with
    | vStr s => exact ⟨s, rfl⟩
    | vUndefined => simp [applyPresetJS, jsToLowerCase] at h
    | vNull => simp [applyPresetJS, jsToLowerCase] at h
    | vBool b => simp [applyPresetJS, jsToLowerCase] at h
    | vNum q => simp [applyPresetJS, jsToLowerCase] at h
    | vArr xs => simp [applyPresetJS, jsToLowerCase] at h
    | vObj fs => simp [applyPresetJS, jsToLowerCase] at h
  · intro config s
    simp only [applyPresetJS, jsToLowerCase, applyPreset]
    cases h : presetLookup (jsToLower s) with
    | ownPreset p => simp [Except.mapError]
    | inherited => simp [Except.mapError]
    | absent => simp [Except.mapError, jsTemplateStr]

/-- C9 witness: the only-for-strings clause of C9 instantiated at a concrete
unknown string name, together with the `TypeError` clause at the empty
config. -/
theorem C9_witness :
    (∃ s, (JSVal.vStr "bogus") = JSVal.vStr s) ∧
    (∃ m, applyPresetJS [] .vNull = .error (.typeError m)) ∧
    (∃ m, applyPresetJS [] .vUndefined = .error (.typeError m)) :=
  ⟨C9_nonstring_preset_name_type_error.2.1 [] (.vStr "bogus")
      "Unknown preset: bogus. Available: aggressive, relaxed, zen" (by decide),
   (C9_nonstring_preset_name_type_error.1 []).1,
   (C9_nonstring_preset_name_type_error.1 []).2⟩

/-! ## Claim C10 -/

/-- C10: `clampThreshold` and `clampResetPeriod` parse with integer-prefix
semantics: a string whose leading characters form an integer yields that
integer clamped into range (`"42px"` gives 42, `"600px"` clamps to 500), a
fractional numeric argument is truncated toward zero before clamping
(`49.9` gives 49, `-49.9` gives the clamped -49, `9.99` truncates to 9 and
then clamps to 10), the parsed value is always the clamp of the leading
integer, and the supplied default is returned exactly when no leading
integer exists (`"px42"`, `""`). -/
theorem C10_clamp_integer_semantics :
    ∀ d : Int,
      clampThreshold "42px" d = 42 ∧ clampResetPeriod "42px" d = 42 ∧
      clampThreshold "49.9" d = 49 ∧ clampResetPeriod "49.9" d = 49 ∧
      clampThreshold "-49.9" d = 10 ∧
      clampThreshold "9.99" d = 10 ∧
      clampThreshold "600px" d = 500 ∧
      (∀ s, parseIntJS s = none → clampThreshold s d = d ∧ clampResetPeriod s d = d) ∧
      (∀ s n, parseIntJS s = some n →
        clampThreshold s d = max 10 (min 500 n) ∧
        clampResetPeriod s d = max 5 (min 300 n)) ∧
      parseIntJS "px42" = none ∧ parseIntJS "" = none := by
  intro d
  refine ⟨rfl, rfl, rfl, rfl, rfl, rfl, rfl, ?_, ?_, rfl, rfl⟩
  · intro s h
    exact ⟨by simp [clampThreshold, h], by simp [clampResetPeriod, h]⟩
  · intro s n h
    exact ⟨by simp [clampThreshold, h], by simp [clampResetPeriod, h]⟩

/-- C10 witness: the default clause at `"px42"` and the clamped-value clause
at `"  77cols"` (whitespace, then the integer prefix 77). -/
theorem C10_witness :
    (clampThreshold "px42" 50 = 50 ∧ clampResetPeriod "px42" 50 = 50) ∧
    (clampThreshold "  77cols" 50 = max 10 (min 500 77) ∧
     clampResetPeriod "  77cols" 50 = max 5 (min 300 77)) :=
  ⟨(C10_clamp_integer_semantics 50).2.2.2.2.2.2.2.1 "px42" rfl,
   (C10_clamp_integer_semantics 50).2.2.2.2.2.2.2.2.1 "  77cols" 77 rfl⟩

end Vibe10x
